import Mathlib

/-!
Shallow embedding of `quart/static.py`: the `PackageStatic` component,
`safe_join`, `send_from_directory`, `send_file` and the root-path
resolution.  Python strings are modelled as Lean `String`s (lists of
characters), absolute filesystem paths as their canonical component
lists (`List String`), and the filesystem / MIME table as an abstract
record `FS`.  Machinery such as `pathlib.Path(...).resolve()` and
`os.path` helpers is embedded as pure lexical functions on component
lists, which is exactly what they compute on a symlink-free tree.
-/

namespace QuartStatic

/-- Split a list of characters at every `'/'`, keeping empty pieces,
mirroring Python's `"…".split("/")` / the component split performed by
`pathlib.PurePath`. -/
def splitSlashChars : List Char → List (List Char)
  | [] => [[]]
  | c :: rest =>
    let r := splitSlashChars rest
    if c = '/' then [] :: r
    else
      match r with
      | [] => [[c]]
      | h :: t => (c :: h) :: t

/-- The raw `/`-separated pieces of a path string. -/
def splitSlash (s : String) : List String :=
  (splitSlashChars s.data).map String.mk

/-- Python: does the path string start with the separator (`os.path.isabs`)? -/
def isAbs (s : String) : Bool :=
  match s.data with
  | '/' :: _ => true
  | _ => false

/-- One step of lexical canonicalization: push the raw pieces `segs` onto an
already-canonical component stack, skipping `""` and `"."` and popping on
`".."` (popping at the root stays at the root), as `Path.resolve()` does on
a symlink-free tree. -/
def normSegs (stack : List String) (segs : List String) : List String :=
  segs.foldl
    (fun st seg =>
      if seg = "" then st
      else if seg = "." then st
      else if seg = ".." then st.dropLast
      else st ++ [seg])
    stack

/-- `Path(arg₀, arg₁, …).resolve()` relative to the canonical working
directory `cwd`: a later absolute argument discards everything before it
(`pathlib` join semantics), and the result is canonicalized. -/
def resolvePaths (cwd : List String) (args : List String) : List String :=
  args.foldl
    (fun st arg =>
      if isAbs arg then normSegs [] (splitSlash arg)
      else normSegs st (splitSlash arg))
    cwd

/-- The characters contributed by a component list: `"/c"` for each
component `c`, concatenated. -/
def segsChars (comps : List String) : List Char :=
  (comps.map (fun c => '/' :: c.data)).flatten

/-- `str(path)` for an absolute canonical path, as a character list:
`"/"` for the root, otherwise `"/c₀/c₁/…"`. -/
def pathChars (comps : List String) : List Char :=
  match comps with
  | [] => ['/']
  | c :: rest => segsChars (c :: rest)

/-- `str(path)` as a `String`. -/
def pathStr (comps : List String) : String :=
  String.mk (pathChars comps)

/-- `os.path.basename` on a path string: the piece after the last `/`. -/
def basenameStr (s : String) : String :=
  String.mk ((splitSlashChars s.data).getLastD [])

/-- `os.path.join(a, b)` for two arguments: an absolute `b` wins, otherwise
a separator is inserted unless `a` is empty or already ends in one. -/
def os_path_join (a b : String) : String :=
  if isAbs b then b
  else if a = "" then a ++ b
  else
    match a.data.getLast? with
    | some '/' => a ++ b
    | _ => a ++ "/" ++ b

/-- The exceptions raised by this module: `NotFound` (client facing),
`RuntimeError` (misconfiguration), `ValueError` (bad `open` mode). -/
inductive PyErr where
  | notFound
  | runtimeError
  | valueError
  deriving DecidableEq, Repr

/-- `safe_join(directory, *paths)` from `quart/static.py`: canonicalize the
directory and the joined candidate, raise `NotFound` unless the candidate's
string form starts with the directory's string form (a raw string-prefix
test, exactly as in the source), else return the candidate. -/
def safe_join (cwd : List String) (directory : String) (paths : List String) :
    Except PyErr (List String) :=
  let safe_path := resolvePaths cwd [directory]
  let full_path := resolvePaths cwd (directory :: paths)
  if (pathChars safe_path).isPrefixOf (pathChars full_path) then
    .ok full_path
  else
    .error .notFound

/-- Abstract filesystem and collaborator services: regular-file test,
whole-file read, and the injected MIME lookup (`mimetypes.guess_type`). -/
structure FS where
  isFile : List String → Bool
  read : List String → List Nat
  guessType : String → Option String

/-- `DEFAULT_MIMETYPE` from the source. -/
def DEFAULT_MIMETYPE : String := "application/octet-stream"

/-- The response value built by `send_file`: body bytes plus mimetype. -/
structure Response where
  body : List Nat
  mimetype : String
  deriving DecidableEq, Repr

/-- `send_file(filename)`: infer the mimetype from the base name of the
path's string form, defaulting to `DEFAULT_MIMETYPE`, read the whole file
and build the response. -/
def send_file (fs : FS) (p : List String) : Response :=
  let mimetype := (fs.guessType (basenameStr (pathStr p))).getD DEFAULT_MIMETYPE
  { body := fs.read p, mimetype := mimetype }

/-- `send_from_directory(directory, file_name)`: `safe_join`, then require a
regular file (else `NotFound`), then delegate to `send_file`. -/
def send_from_directory (fs : FS) (cwd : List String)
    (directory file_name : String) : Except PyErr Response :=
  match safe_join cwd directory [file_name] with
  | .error e => .error e
  | .ok file_path =>
    if fs.isFile file_path then .ok (send_file fs file_path)
    else .error .notFound

/-- A loaded Python module as far as `_find_root_path` inspects it: its
optional `__file__` attribute. -/
structure PyModule where
  file : Option String

/-- The interpreter state consulted by `_find_root_path`: `sys.modules` and
`pkgutil.get_loader` composed with `loader.get_filename`, `none` meaning no
loader exists. -/
structure SysState where
  modules : String → Option PyModule
  loaderFilename : String → Option String

/-- `os.path.dirname(os.path.abspath(file_path))` as a string, relative to
the canonical working directory `cwd`. -/
def dirnameAbspath (cwd : List String) (file_path : String) : String :=
  pathStr ((resolvePaths cwd [file_path]).dropLast)

/-- The `PackageStatic` component state after `__init__`: the fields that
the embedded methods read. -/
structure PackageStatic where
  import_name : String
  root_path : String
  static_folder_field : Option String
  static_url_path_field : Option String

/-- The `static_folder` property: `os.path.join(root_path, _static_folder)`
when the folder is configured. -/
def static_folder (ps : PackageStatic) : Option String :=
  match ps.static_folder_field with
  | some sf => some (os_path_join ps.root_path sf)
  | none => none

/-- The `static_url_path` property: an explicit setting wins, otherwise
`'/' + os.path.basename(static_folder)` when a folder is configured. -/
def static_url_path (ps : PackageStatic) : Option String :=
  match ps.static_url_path_field with
  | some p => some p
  | none =>
    match static_folder ps with
    | some f => some ("/" ++ basenameStr f)
    | none => none

/-- `PackageStatic.send_static_file`: `RuntimeError` when no static folder
is configured, else delegate to `send_from_directory`. -/
def send_static_file (fs : FS) (cwd : List String) (ps : PackageStatic)
    (filename : String) : Except PyErr Response :=
  match static_folder ps with
  | none => .error .runtimeError
  | some dir => send_from_directory fs cwd dir filename

/-- `PackageStatic.open_resource`: only modes `'r'` and `'rb'` are allowed;
on success the file at `os.path.join(root_path, path)` is opened in the
given mode (modelled as returning that path–mode pair). -/
def open_resource (ps : PackageStatic) (path mode : String) :
    Except PyErr (String × String) :=
  if ¬(mode = "r" ∨ mode = "rb") then .error .valueError
  else .ok (os_path_join ps.root_path path, mode)

/-- `PackageStatic._find_root_path`: an explicit `root_path` is returned
verbatim; otherwise the `__file__` of the loaded module, or the loader's
filename, locates the root; with no loader or for `'__main__'` in the
loader branch the working directory is returned. -/
def find_root_path (st : SysState) (cwd : List String) (import_name : String)
    (root_path : Option String) : String :=
  match root_path with
  | some r => r
  | none =>
    let fileFromModule : Option String :=
      match st.modules import_name with
      | some m => m.file
      | none => none
    match fileFromModule with
    | some fp => dirnameAbspath cwd fp
    | none =>
      match st.loaderFilename import_name with
      | none => pathStr cwd
      | some fp =>
        if import_name = "__main__" then pathStr cwd
        else dirnameAbspath cwd fp

/-! ### Helper lemmas about the path model -/

theorem resolvePaths_cons (cwd : List String) (a : String) (args : List String) :
    resolvePaths cwd (a :: args) = resolvePaths (resolvePaths cwd [a]) args :=
  rfl

theorem resolvePaths_dotdot_etc (A : List String) :
    resolvePaths A ["..", "..", "etc/passwd"] =
      A.dropLast.dropLast ++ ["etc", "passwd"] := by
  show (A.dropLast.dropLast ++ ["etc"]) ++ ["passwd"] = _
  simp

theorem segsChars_append (s t : List String) :
    segsChars (s ++ t) = segsChars s ++ segsChars t := by
  simp [segsChars]

theorem pathChars_of_ne_nil {comps : List String} (h : comps ≠ []) :
    pathChars comps = segsChars comps := by
  cases comps with
  | nil => exact absurd rfl h
  | cons c rest => rfl

theorem pathChars_mono {s f : List String} (h : s <+: f) :
    pathChars s <+: pathChars f := by
  obtain ⟨t, rfl⟩ := h
  cases s with
  | nil =>
    cases t with
    | nil => exact List.prefix_refl _
    | cons b t' =>
      show ['/'] <+: pathChars (b :: t')
      rw [pathChars_of_ne_nil (by simp)]
      simp only [segsChars, List.map_cons, List.flatten_cons]
      exact List.cons_prefix_cons.mpr ⟨rfl, List.nil_prefix⟩
  | cons a s' =>
    cases t with
    | nil => simp
    | cons b t' =>
      rw [pathChars_of_ne_nil (by simp), pathChars_of_ne_nil (by simp),
        segsChars_append]
      exact List.prefix_append _ _

/-- Splitting at a separator character: if neither side of the separator
contains it again on the left, a prefix relation between two such
separated lists forces the pieces before the separator to agree. -/
theorem sep_split {c : Char} (xs : List Char) :
    ∀ as u v : List Char, c ∉ xs → c ∉ as →
      xs ++ c :: u <+: as ++ c :: v → xs = as ∧ u <+: v := by
  induction xs with
  | nil =>
    intro as u v _ has h
    cases as with
    | nil =>
      simp only [List.nil_append] at h
      exact ⟨rfl, (List.cons_prefix_cons.mp h).2⟩
    | cons a as' =>
      simp only [List.nil_append, List.cons_append] at h
      have hca := (List.cons_prefix_cons.mp h).1
      simp only [List.mem_cons, not_or] at has
      exact absurd hca has.1
  | cons x xs' ih =>
    intro as u v hxs has h
    simp only [List.mem_cons, not_or] at hxs
    cases as with
    | nil =>
      simp only [List.cons_append, List.nil_append] at h
      have hxc := (List.cons_prefix_cons.mp h).1
      exact absurd hxc.symm hxs.1
    | cons a as' =>
      simp only [List.mem_cons, not_or] at has
      simp only [List.cons_append] at h
      obtain ⟨hxa, h2⟩ := List.cons_prefix_cons.mp h
      obtain ⟨he, hp⟩ := ih as' u v hxs.2 has.2 h2
      exact ⟨by rw [hxa, he], hp⟩

theorem splitSlashChars_length (l : List Char) :
    (splitSlashChars l).length = l.count '/' + 1 := by
  induction l with
  | nil => rfl
  | cons c rest ih =>
    by_cases hc : c = '/'
    · subst hc
      simp [splitSlashChars, List.count_cons, ih]
    · cases hr : splitSlashChars rest with
      | nil => rw [hr] at ih; simp at ih
      | cons h t =>
        rw [hr] at ih
        simp only [splitSlashChars, hr, if_neg hc]
        simp only [List.length_cons] at ih ⊢
        simp [List.count_cons, hc]
        omega

theorem splitSlashChars_ne_nil (l : List Char) : splitSlashChars l ≠ [] := by
  intro h
  have := splitSlashChars_length l
  rw [h] at this
  simp at this

theorem splitSlashChars_no_sep (B : List Char) (hB : '/' ∉ B) :
    splitSlashChars B = [B] := by
  induction B with
  | nil => rfl
  | cons c rest ih =>
    simp only [List.mem_cons, not_or] at hB
    have hc : c ≠ '/' := Ne.symm hB.1
    rw [splitSlashChars]
    simp [hc, ih hB.2]

theorem splitSlashChars_getLast (A B : List Char) (hB : '/' ∉ B) :
    (splitSlashChars (A ++ '/' :: B)).getLast? = some B := by
  induction A with
  | nil =>
    rw [List.nil_append, splitSlashChars]
    simp [splitSlashChars_no_sep B hB]
  | cons a A' ih =>
    by_cases ha : a = '/'
    · subst ha
      cases hr : splitSlashChars (A' ++ '/' :: B) with
      | nil => exact absurd hr (splitSlashChars_ne_nil _)
      | cons h t =>
        rw [hr] at ih
        rw [List.cons_append, splitSlashChars]
        simp only [hr, eq_self_iff_true, if_true]
        rw [List.getLast?_cons_cons]
        exact ih
    · cases hr : splitSlashChars (A' ++ '/' :: B) with
      | nil => exact absurd hr (splitSlashChars_ne_nil _)
      | cons h t =>
        rw [hr] at ih
        have hlen := splitSlashChars_length (A' ++ '/' :: B)
        rw [hr] at hlen
        have ht : t ≠ [] := by
          intro htn
          subst htn
          simp only [List.length_cons, List.length_nil] at hlen
          have hmem : '/' ∈ A' ++ '/' :: B := by simp
          have := List.count_pos_iff.mpr hmem
          omega
        cases t with
        | nil => exact absurd rfl ht
        | cons t0 t' =>
          rw [List.cons_append, splitSlashChars]
          simp only [if_neg ha, hr]
          rw [List.getLast?_cons_cons]
          exact ih

theorem basenameStr_pathStr (s : List String) (x : String) (hx : '/' ∉ x.data) :
    basenameStr (pathStr (s ++ [x])) = x := by
  have h1 : (pathStr (s ++ [x])).data = segsChars s ++ '/' :: x.data := by
    show pathChars (s ++ [x]) = _
    rw [pathChars_of_ne_nil (by simp), segsChars_append]
    simp [segsChars]
  rw [basenameStr, h1]
  have h2 := splitSlashChars_getLast (segsChars s) x.data hx
  rw [List.getLastD_eq_getLast?, h2]
  rfl

/-! ### Concrete states used by the closed instances -/

/-- An interpreter state with no loaded modules and no loaders. -/
def emptyState : SysState :=
  { modules := fun _ => none, loaderFilename := fun _ => none }

/-- An interpreter state in which the synthetic entry point `__main__` is a
loaded module whose `__file__` is `/app/run.py`. -/
def mainState : SysState :=
  { modules := fun n => if n = "__main__" then some ⟨some "/app/run.py"⟩ else none,
    loaderFilename := fun _ => none }

/-- A filesystem with no regular files and an empty MIME table. -/
def noFS : FS :=
  { isFile := fun _ => false, read := fun _ => [], guessType := fun _ => none }

/-- A filesystem on which every path is a regular file with two bytes of
content, and whose MIME table resolves nothing. -/
def octetFS : FS :=
  { isFile := fun _ => true, read := fun _ => [104, 105], guessType := fun _ => none }

/-- A component whose static folder field is `static` under root `/r`,
with no explicit URL path. -/
def psA : PackageStatic :=
  { import_name := "appa", root_path := "/r",
    static_folder_field := some "static", static_url_path_field := none }

/-- A component whose static folder field is `sub/static` under root
`/other/r2`, with no explicit URL path. -/
def psB : PackageStatic :=
  { import_name := "appb", root_path := "/other/r2",
    static_folder_field := some "sub/static", static_url_path_field := none }

/-- A component with no static folder configured. -/
def psNone : PackageStatic :=
  { import_name := "bare", root_path := "/r",
    static_folder_field := none, static_url_path_field := none }

/-! ### Claim theorems -/

/-- C1: evaluating the code at the failing input.  With base directory
`/a/b` and untrusted segment `../b-evil/x`, the candidate canonicalizes to
`/a/b-evil/x`, a sibling that shares a raw string prefix with `/a/b` but is
not a path-component descendant of it; the claim (and the spec's mandated
contract) requires `NotFound`, yet `safe_join`'s raw `startswith` test
accepts it and returns the sibling path. -/
theorem safe_join_sibling_shared_string :
    safe_join [] "/a/b" ["../b-evil/x"] = .ok ["a", "b-evil", "x"] ∧
    ¬ resolvePaths [] ["/a/b"] <+: ["a", "b-evil", "x"] :=
  ⟨rfl, by decide⟩

/-- C2 counterexample: the claim quantifies over every directory, but for
the base directory `/` the traversal `../../etc/passwd` canonicalizes to
`/etc/passwd`, which lies inside `/`, so `safe_join` returns it instead of
raising `NotFound`. -/
theorem safe_join_dotdot_root_counterexample :
    safe_join [] "/" ["..", "..", "etc/passwd"] = .ok ["etc", "passwd"] :=
  rfl

/-- C2 (amended): for every directory whose canonical form has at least two
components `s ++ [x, y]` with `x` slash-free, unless `x = "etc"` and `y` is
a string prefix of `"passwd"` (the string-prefix acceptances of the code),
`safe_join(dir, "..", "..", "etc/passwd")` raises `NotFound`. -/
theorem safe_join_dotdot_etc_passwd (cwd : List String) (directory : String)
    (s : List String) (x y : String)
    (hsafe : resolvePaths cwd [directory] = s ++ [x, y])
    (hx : '/' ∉ x.data)
    (hxy : ¬(x = "etc" ∧ y.data <+: "passwd".data)) :
    safe_join cwd directory ["..", "..", "etc/passwd"] = .error .notFound := by
  have hfull : resolvePaths cwd (directory :: ["..", "..", "etc/passwd"]) =
      s ++ ["etc", "passwd"] := by
    rw [resolvePaths_cons, hsafe, resolvePaths_dotdot_etc]
    have he : s ++ [x, y] = (s ++ [x]) ++ [y] := by simp
    rw [he, List.dropLast_concat, List.dropLast_concat]
  have hnot : ¬ pathChars (s ++ [x, y]) <+: pathChars (s ++ ["etc", "passwd"]) := by
    intro hpre
    rw [pathChars_of_ne_nil (by simp), pathChars_of_ne_nil (by simp),
      segsChars_append, segsChars_append] at hpre
    have hseg1 : segsChars [x, y] = '/' :: (x.data ++ '/' :: y.data) := by
      simp [segsChars]
    have hseg2 : segsChars ["etc", "passwd"] =
        '/' :: ("etc".data ++ '/' :: "passwd".data) := by
      simp [segsChars]
    rw [hseg1, hseg2] at hpre
    have h2 := ( List.prefix_append_right_inj (segsChars s)).mp hpre
    have h3 := (List.cons_prefix_cons.mp h2).2
    have h4 := sep_split x.data "etc".data y.data "passwd".data hx (by decide) h3
    refine hxy ⟨?_, h4.2⟩
    have hd := h4.1
    calc x = String.mk x.data := rfl
      _ = String.mk "etc".data := by rw [hd]
      _ = "etc" := rfl
  have hb : (pathChars (resolvePaths cwd [directory])).isPrefixOf
      (pathChars (resolvePaths cwd (directory :: ["..", "..", "etc/passwd"])))
        = false := by
    rw [hsafe, hfull]
    cases hc : (pathChars (s ++ [x, y])).isPrefixOf
        (pathChars (s ++ ["etc", "passwd"])) with
    | false => rfl
    | true => exact absurd ( List.isPrefixOf_iff_prefix.mp hc) hnot
  simp [safe_join, hb]

/-- C2 witness: the amended theorem applied at the concrete directory
`/a/b/c`. -/
theorem safe_join_dotdot_etc_passwd_witness :
    resolvePaths [] ["/a/b/c"] = ["a"] ++ ["b", "c"] ∧ '/' ∉ "b".data ∧
    ¬("b" = "etc" ∧ "c".data <+: "passwd".data) ∧
    safe_join [] "/a/b/c" ["..", "..", "etc/passwd"] = .error .notFound :=
  ⟨rfl, by decide, by decide,
    safe_join_dotdot_etc_passwd [] "/a/b/c" ["a"] "b" "c" rfl (by decide)
      (by decide)⟩

/-- C3: whenever the canonicalized candidate has the canonicalized
directory's components as a prefix (it is a descendant of, or equal to,
the directory), `safe_join` succeeds and returns the canonicalized
candidate path. -/
theorem safe_join_descendant_ok (cwd : List String) (directory : String)
    (paths : List String)
    (h : resolvePaths cwd [directory] <+: resolvePaths cwd (directory :: paths)) :
    safe_join cwd directory paths = .ok (resolvePaths cwd (directory :: paths)) := by
  have hb : (pathChars (resolvePaths cwd [directory])).isPrefixOf
      (pathChars (resolvePaths cwd (directory :: paths))) = true :=
    List.isPrefixOf_iff_prefix.mpr (pathChars_mono h)
  simp [safe_join, hb]

/-- C3 witness: the theorem applied to `/srv/static` and the safe relative
file name `css/site.css`. -/
theorem safe_join_descendant_ok_witness :
    resolvePaths [] ["/srv/static"] <+:
      resolvePaths [] ["/srv/static", "css/site.css"] ∧
    safe_join [] "/srv/static" ["css/site.css"] =
      .ok (resolvePaths [] ["/srv/static", "css/site.css"]) :=
  ⟨by decide, safe_join_descendant_ok [] "/srv/static" ["css/site.css"] (by decide)⟩

/-- C4: when no static folder is configured, `send_static_file` signals
`RuntimeError`, an error kind distinct from the client-facing `NotFound`,
and returns no response. -/
theorem send_static_file_unconfigured (fs : FS) (cwd : List String)
    (ps : PackageStatic) (filename : String)
    (h : ps.static_folder_field = none) :
    send_static_file fs cwd ps filename = .error .runtimeError ∧
    PyErr.runtimeError ≠ PyErr.notFound := by
  constructor
  · simp [send_static_file, static_folder, h]
  · decide

/-- C4 witness: the theorem applied to a component with no static folder. -/
theorem send_static_file_unconfigured_witness :
    psNone.static_folder_field = none ∧
    (send_static_file noFS [] psNone "x.txt" = .error .runtimeError ∧
      PyErr.runtimeError ≠ PyErr.notFound) :=
  ⟨rfl, send_static_file_unconfigured noFS [] psNone "x.txt" rfl⟩

/-- C5: when `safe_join` succeeds but the resolved path is not a regular
file, `send_from_directory` raises `NotFound` and produces no response. -/
theorem send_from_directory_missing (fs : FS) (cwd : List String)
    (directory file_name : String) (p : List String)
    (hjoin : safe_join cwd directory [file_name] = .ok p)
    (hfile : fs.isFile p = false) :
    send_from_directory fs cwd directory file_name = .error .notFound := by
  simp [send_from_directory, hjoin, hfile]

/-- C5 witness: the theorem applied to `/srv` and `missing.txt` over a
filesystem with no regular files. -/
theorem send_from_directory_missing_witness :
    safe_join [] "/srv" ["missing.txt"] = .ok ["srv", "missing.txt"] ∧
    noFS.isFile ["srv", "missing.txt"] = false ∧
    send_from_directory noFS [] "/srv" "missing.txt" = .error .notFound :=
  ⟨rfl, rfl,
    send_from_directory_missing noFS [] "/srv" "missing.txt"
      ["srv", "missing.txt"] rfl rfl⟩

/-- C6: `send_file` infers the content type by applying the MIME lookup to
the path's base name (its final component), falls back to the fixed
default `application/octet-stream` when the lookup yields nothing, and the
response body is the file's full byte content. -/
theorem send_file_content_type (fs : FS) (s : List String) (x : String)
    (hx : '/' ∉ x.data) :
    (send_file fs (s ++ [x])).body = fs.read (s ++ [x]) ∧
    (send_file fs (s ++ [x])).mimetype
      = (fs.guessType x).getD DEFAULT_MIMETYPE ∧
    (fs.guessType x = none →
      (send_file fs (s ++ [x])).mimetype = "application/octet-stream") := by
  have hb := basenameStr_pathStr s x hx
  refine ⟨rfl, ?_, ?_⟩
  · simp [send_file, hb]
  · intro h
    simp [send_file, hb, h, DEFAULT_MIMETYPE]

/-- C6 witness: the theorem applied to `/www/noext` over a filesystem whose
MIME table resolves nothing. -/
theorem send_file_content_type_witness :
    '/' ∉ "noext".data ∧
    ((send_file octetFS (["www"] ++ ["noext"])).body
        = octetFS.read (["www"] ++ ["noext"]) ∧
      (send_file octetFS (["www"] ++ ["noext"])).mimetype
        = (octetFS.guessType "noext").getD DEFAULT_MIMETYPE ∧
      (octetFS.guessType "noext" = none →
        (send_file octetFS (["www"] ++ ["noext"])).mimetype
          = "application/octet-stream")) :=
  ⟨by decide, send_file_content_type octetFS ["www"] "noext" (by decide)⟩

/-- C7: a provided non-empty explicit root override is returned verbatim by
root resolution, with no canonicalization and no existence check (the
result does not depend on the interpreter state at all). -/
theorem find_root_path_explicit_override (st : SysState) (cwd : List String)
    (import_name root : String) (hne : root ≠ "") :
    find_root_path st cwd import_name (some root) = root :=
  rfl

/-- C7 witness: the theorem applied to an override that exists nowhere. -/
theorem find_root_path_explicit_override_witness :
    "/does/not/exist" ≠ "" ∧
    find_root_path emptyState [] "app" (some "/does/not/exist")
      = "/does/not/exist" :=
  ⟨by decide,
    find_root_path_explicit_override emptyState [] "app" "/does/not/exist"
      (by decide)⟩

/-- C8 counterexample: the claim says the synthetic entry-point identifier
always resolves to the working directory, but when `__main__` is a loaded
module with a `__file__`, `_find_root_path` returns that file's directory
(`/app`), not the working directory (`/work`). -/
theorem find_root_path_main_module_counterexample :
    find_root_path mainState ["work"] "__main__" none = "/app" ∧
    find_root_path mainState ["work"] "__main__" none ≠ pathStr ["work"] := by
  constructor
  · rfl
  · decide

/-- C8 (amended): for every identifier whose loaded-module table yields no
file location, if additionally no loader exists or the identifier is the
synthetic entry point `__main__`, root resolution returns the current
working directory (and, being a total function, never raises). -/
theorem find_root_path_cwd_fallback (st : SysState) (cwd : List String)
    (import_name : String)
    (hmod : (match st.modules import_name with
             | some m => m.file
             | none => none) = none)
    (hloc : st.loaderFilename import_name = none ∨ import_name = "__main__") :
    find_root_path st cwd import_name none = pathStr cwd := by
  unfold find_root_path
  rw [hmod]
  cases hloc with
  | inl h => rw [h]
  | inr h =>
    cases hl : st.loaderFilename import_name with
    | none => rfl
    | some fp => simp [h]

/-- C8 witness: the amended theorem applied to an identifier with no module
entry and no loader. -/
theorem find_root_path_cwd_fallback_witness :
    (match emptyState.modules "pkg" with
     | some m => m.file
     | none => none) = none ∧
    (emptyState.loaderFilename "pkg" = none ∨ "pkg" = "__main__") ∧
    find_root_path emptyState ["work"] "pkg" none = pathStr ["work"] :=
  ⟨rfl, Or.inl rfl,
    find_root_path_cwd_fallback emptyState ["work"] "pkg" rfl (Or.inl rfl)⟩

/-- C9: an explicitly set static URL path is returned unchanged; with no
explicit setting and no static folder the URL path is absent; with no
explicit setting and a configured folder the derived value is
`'/' + basename(static_folder)`, hence determined solely by the final path
segment of the static folder (two components whose folders share a base
name derive the same URL path). -/
theorem static_url_path_derivation (ps1 ps2 : PackageStatic) :
    (∀ p, ps1.static_url_path_field = some p → static_url_path ps1 = some p) ∧
    (ps1.static_url_path_field = none → ps1.static_folder_field = none →
      static_url_path ps1 = none) ∧
    (∀ f, ps1.static_url_path_field = none → static_folder ps1 = some f →
      static_url_path ps1 = some ("/" ++ basenameStr f)) ∧
    (ps1.static_url_path_field = none → ps2.static_url_path_field = none →
      ∀ f1 f2, static_folder ps1 = some f1 → static_folder ps2 = some f2 →
        basenameStr f1 = basenameStr f2 →
        static_url_path ps1 = static_url_path ps2) := by
  refine ⟨?_, ?_, ?_, ?_⟩
  · intro p hp
    simp [static_url_path, hp]
  · intro h1 h2
    simp [static_url_path, static_folder, h1, h2]
  · intro f h1 h2
    simp [static_url_path, h1, h2]
  · intro h1 h2 f1 f2 hf1 hf2 hb
    simp [static_url_path, h1, h2, hf1, hf2, hb]

/-- C9 witness: the solely-by-basename conjunct applied to two components
with different roots and folder sub-paths but the same folder base name. -/
theorem static_url_path_derivation_witness :
    psA.static_url_path_field = none ∧ psB.static_url_path_field = none ∧
    static_folder psA = some "/r/static" ∧
    static_folder psB = some "/other/r2/sub/static" ∧
    basenameStr "/r/static" = basenameStr "/other/r2/sub/static" ∧
    static_url_path psA = static_url_path psB :=
  ⟨rfl, rfl, rfl, rfl, by decide,
    (static_url_path_derivation psA psB).2.2.2 rfl rfl "/r/static"
      "/other/r2/sub/static" rfl rfl (by decide)⟩

/-- C10: every mode other than the two read-only modes `r` and `rb` makes
`open_resource` raise `ValueError` without opening any file. -/
theorem open_resource_readonly (ps : PackageStatic) (path mode : String)
    (h1 : mode ≠ "r") (h2 : mode ≠ "rb") :
    open_resource ps path mode = .error .valueError := by
  simp [open_resource, h1, h2]

/-- C10 witness: the theorem applied to the write mode `w`. -/
theorem open_resource_readonly_witness :
    "w" ≠ "r" ∧ "w" ≠ "rb" ∧
    open_resource psA "cfg.txt" "w" = .error .valueError :=
  ⟨by decide, by decide,
    open_resource_readonly psA "cfg.txt" "w" (by decide) (by decide)⟩

end QuartStatic
